import Mathlib

/-!
Verification of the `core_api` retail backend (models, serializers and the
Chilean RUT validator) against its natural-language specification.

Strings from the Python source are embedded as `List Char`; Python exceptions
become explicit error values of type `PyExc`.  All definitions are translated
from the source files `core_api/validators.py`, `core_api/models.py` and
`core_api/serializers.py`, except where a doc comment marked
`Modelled from the spec:` says otherwise.
-/

deriving instance DecidableEq for Except

/-- Exceptions that the embedded Python code can raise: `rest_framework`'s
`ValidationError` (carrying its message) and the builtin `ValueError`. -/
inductive PyExc where
  | validationError (msg : List Char)
  | valueError
deriving DecidableEq

/-- Model of Python `str.strip()` whitespace (restricted to the ASCII
whitespace characters `\t`..`\r` (codepoints 9–13) and the space (32), the
only whitespace this data can carry). -/
def pyIsSpace (c : Char) : Bool :=
  (9 ≤ c.toNat && c.toNat ≤ 13) || c.toNat = 32

/-- Model of Python `str.upper()` on a single character, for the ASCII range
(the only case-carrying characters in RUT inputs). -/
def pyUpper (c : Char) : Char :=
  if 97 ≤ c.toNat ∧ c.toNat ≤ 122 then Char.ofNat (c.toNat - 32) else c

/-- Characters kept by `re.sub(r'[.-]', '', rut)`: everything except a dot
(codepoint 46) or a dash (codepoint 45). -/
def notDotDash (c : Char) : Bool :=
  !(c.toNat = 46 || c.toNat = 45)

/-- Model of Python `str.strip()`: drop whitespace at both ends. -/
def pyStrip (s : List Char) : List Char :=
  ((s.dropWhile pyIsSpace).reverse.dropWhile pyIsSpace).reverse

/-- `clean_rut` from `validators.py`: `re.sub(r'[.-]', '', rut).strip().upper()`.
The `isinstance(rut, str)` guard always passes here because the domain is
already strings. -/
def clean_rut (rut : List Char) : List Char :=
  (pyStrip (rut.filter notDotDash)).map pyUpper

/-- Model of Python `str.isdigit()` on one character: true for the decimal
digits and also for compatibility digits such as the superscripts
`¹`, `²`, `³`, which are *not* accepted by `int()`. -/
def pyIsDigit (c : Char) : Bool :=
  c.isDigit || c = '¹' || c = '²' || c = '³'

/-- Model of Python `str.isdigit()` on a string: non-empty and every
character a digit. -/
def pyStrIsDigit (s : List Char) : Bool :=
  !s.isEmpty && s.all pyIsDigit

/-- Model of Python `int(c)` for a single character: the decimal digits
convert, every other character (including the superscript digits accepted by
`str.isdigit`) raises `ValueError`, modelled as `none`. -/
def pyCharToInt (c : Char) : Option Nat :=
  if c.isDigit then some (c.toNat - 48) else none

/-- Conversion of every character of a string via `int`, as consumed by the
`for digit in reversed_digits` loop: the first failing character raises
`ValueError` (modelled as `none` for the whole list). -/
def pyMapInt : List Char → Option (List Nat)
  | [] => some []
  | c :: cs =>
    match pyCharToInt c with
    | none => none
    | some d =>
      match pyMapInt cs with
      | none => none
      | some ds => some (d :: ds)

/-- Model of Python `str.zfill(w)` for sign-free strings: left-pad with `'0'`
to width `w`. -/
def zfill (w : Nat) (s : List Char) : List Char :=
  List.replicate (w - s.length) '0' ++ s

/-- The summation loop of `calculate_dv`: `factor` starts at 2, is
incremented each step and reset to 2 once it exceeds 7. -/
def dvSumLoop : List Nat → Nat → Nat
  | [], _ => 0
  | d :: ds, factor => d * factor + dvSumLoop ds (if factor + 1 > 7 then 2 else factor + 1)

/-- `calculate_dv` from `validators.py`.  Note: in the source the
`except ValueError: return ""` handler is dead code, because `zfill` cannot
raise and `map(int, ...)` is lazy — the `int` conversions actually run inside
the later `for` loop, outside the `try`, so a non-decimal character raises an
uncaught `ValueError` (modelled as `.error .valueError`). -/
def calculate_dv (rut_body : List Char) : Except PyExc (List Char) :=
  match pyMapInt (zfill 8 rut_body).reverse with
  | none => .error .valueError
  | some ds =>
    let remainder := dvSumLoop ds 2 % 11
    let dv := 11 - remainder
    if dv = 10 then .ok ['K']
    else if dv = 11 then .ok ['0']
    else .ok [Char.ofNat (48 + dv)]

/-- ASCII apostrophe, kept out of string literals. -/
def apos : Char := Char.ofNat 39

/-- Message of the "too short" `ValidationError` in `validate_chilean_rut`. -/
def msgTooShort : List Char :=
  "El RUT no es válido: demasiado corto.".toList

/-- Message of the "body must be numeric" `ValidationError`. -/
def msgNotNumeric : List Char :=
  "El cuerpo del RUT debe contener solo números.".toList

/-- Message of the checksum `ValidationError`, interpolating the original
input and the computed check character exactly as the source f-string does. -/
def msgChecksum (value dv_calculado : List Char) : List Char :=
  "El RUT ingresado (".toList ++ [apos] ++ value ++ [apos] ++
    ") es inválido. El dígito verificador correcto es ".toList ++
    [apos] ++ dv_calculado ++ [apos] ++ ".".toList

/-- `validate_chilean_rut` from `validators.py`.  The `none` branch of
`getLast?` is unreachable because the length check guarantees a non-empty
cleaned string. -/
def validate_chilean_rut (value : List Char) : Except PyExc (List Char) :=
  let rl := clean_rut value
  if rl.length < 2 then .error (.validationError msgTooShort)
  else
    match rl.getLast? with
    | none => .error (.validationError msgTooShort)
    | some dvIn =>
      if pyStrIsDigit rl.dropLast then
        match calculate_dv rl.dropLast with
        | .error e => .error e
        | .ok dvCalc =>
          if dvCalc = [dvIn] then .ok value
          else .error (.validationError (msgChecksum value dvCalc))
      else .error (.validationError msgNotNumeric)

/-- Weighted sum following the spec text for claim C2: iterate the digits
from least-significant to most-significant, multiplying each by the cyclic
weight sequence 2,3,4,5,6,7,2,3,… — the weight of the digit at
least-significant index `i` is `2 + i % 6`. -/
def specSum : List Nat → Nat → Nat
  | [], _ => 0
  | d :: ds, i => d * (2 + i % 6) + specSum ds (i + 1)

/-- Reference definition of the DV algorithm, written from the spec's words
(claim C2): left-pad the body with zeros to at least 8 digits, sum the digits
from least-significant to most-significant against the cyclic weights
2,3,4,5,6,7, let `remainder = sum mod 11` and `dv = 11 - remainder`, and map
`dv = 10 → K`, `dv = 11 → 0`, else the decimal digit as a character. -/
def dv_spec (body : List Char) : List Char :=
  let padded := List.replicate (8 - body.length) '0' ++ body
  let s := specSum (padded.reverse.map (fun c => c.toNat - 48)) 0
  let remainder := s % 11
  let dv := 11 - remainder
  if dv = 10 then ['K'] else if dv = 11 then ['0'] else [Char.ofNat (48 + dv)]

/-- Final mapping of a weighted sum to the check character. -/
def mkDvChar (s : Nat) : List Char :=
  if 11 - s % 11 = 10 then ['K']
  else if 11 - s % 11 = 11 then ['0']
  else [Char.ofNat (48 + (11 - s % 11))]

theorem pyMapInt_digits (s : List Char) (h : s.all Char.isDigit = true) :
    pyMapInt s = some (s.map (fun c => c.toNat - 48)) := by
  induction s with
  | nil => rfl
  | cons c cs ih =>
    simp only [List.all_cons, Bool.and_eq_true] at h
    simp [pyMapInt, pyCharToInt, h.1, ih h.2]

theorem dvSumLoop_eq_specSum (ds : List Nat) : ∀ k, dvSumLoop ds (2 + k % 6) = specSum ds k := by
  induction ds with
  | nil => intro k; rfl
  | cons d ds ih =>
    intro k
    have hstep : (if 2 + k % 6 + 1 > 7 then 2 else 2 + k % 6 + 1) = 2 + (k + 1) % 6 := by
      split <;> omega
    simp only [dvSumLoop, specSum, hstep, ih (k + 1)]

theorem dvSumLoop_zeros (m : Nat) : ∀ f, dvSumLoop (List.replicate m 0) f = 0 := by
  induction m with
  | zero => intro f; rfl
  | succ n ih => intro f; simp [List.replicate, dvSumLoop, ih]

theorem dvSumLoop_app_zeros (ds : List Nat) (m : Nat) :
    ∀ f, dvSumLoop (ds ++ List.replicate m 0) f = dvSumLoop ds f := by
  induction ds with
  | nil => intro f; simpa [dvSumLoop] using dvSumLoop_zeros m f
  | cons d ds ih => intro f; simp [dvSumLoop, ih]

theorem zfill_all_digits (body : List Char) (h : body.all Char.isDigit = true) :
    (zfill 8 body).all Char.isDigit = true := by
  simp only [zfill, List.all_append, Bool.and_eq_true]
  refine ⟨?_, h⟩
  simp [List.all_eq_true]

theorem calculate_dv_digits (body : List Char) (h : body.all Char.isDigit = true) :
    calculate_dv body =
      .ok (mkDvChar (dvSumLoop ((zfill 8 body).reverse.map (fun c => c.toNat - 48)) 2)) := by
  have hall : ((zfill 8 body).reverse).all Char.isDigit = true := by
    simpa using zfill_all_digits body h
  simp only [calculate_dv, pyMapInt_digits _ hall, mkDvChar]
  split_ifs <;> rfl

/-- The weighted sum of the reversed padded body, with the leading padding
zeros stripped: they contribute nothing. -/
theorem zfill_sum_eq (body : List Char) :
    dvSumLoop ((zfill 8 body).reverse.map (fun c => c.toNat - 48)) 2 =
      dvSumLoop (body.reverse.map (fun c => c.toNat - 48)) 2 := by
  simp only [zfill, List.reverse_append, List.reverse_replicate, List.map_append,
    List.map_replicate]
  have h0 : '0'.toNat - 48 = 0 := by decide
  rw [h0, dvSumLoop_app_zeros]

/-- C2: for every body string of decimal digits, `calculate_dv` computes
exactly the check character of the reference definition `dv_spec`, which is
written from the spec's words (left zero-padding to at least 8 digits,
least-significant-first cyclic weights 2,3,4,5,6,7, remainder = sum mod 11,
dv = 11 - remainder, with 10 ↦ K and 11 ↦ 0). -/
theorem calculate_dv_matches_spec (body : List Char) (h : body.all Char.isDigit = true) :
    calculate_dv body = .ok (dv_spec body) := by
  rw [calculate_dv_digits body h]
  have hfac : dvSumLoop ((zfill 8 body).reverse.map (fun c => c.toNat - 48)) 2
      = specSum ((zfill 8 body).reverse.map (fun c => c.toNat - 48)) 0 := by
    simpa using dvSumLoop_eq_specSum ((zfill 8 body).reverse.map (fun c => c.toNat - 48)) 0
  simp only [zfill] at hfac
  simp only [mkDvChar, dv_spec, zfill, hfac]

/-- Witness for C2 at the spec's own example body. -/
theorem calculate_dv_matches_spec_witness :
    ("76086428".toList.all Char.isDigit = true) ∧
      calculate_dv "76086428".toList = .ok (dv_spec "76086428".toList) :=
  ⟨by decide, calculate_dv_matches_spec "76086428".toList (by decide)⟩

/-- C10: the computed check character is invariant under left zero-padding
of the body, because padded zero digits contribute nothing to the weighted
sum. -/
theorem calculate_dv_zero_pad (b : List Char) (k : Nat) (h : b.all Char.isDigit = true) :
    calculate_dv (List.replicate k '0' ++ b) = calculate_dv b := by
  have hall : (List.replicate k '0' ++ b).all Char.isDigit = true := by
    simp only [List.all_append, Bool.and_eq_true]
    exact ⟨by simp [List.all_eq_true], h⟩
  rw [calculate_dv_digits _ hall, calculate_dv_digits b h, zfill_sum_eq, zfill_sum_eq]
  have h0 : '0'.toNat - 48 = 0 := by decide
  have hsplit : ((List.replicate k '0' ++ b).reverse.map (fun c => c.toNat - 48))
      = (b.reverse.map (fun c => c.toNat - 48)) ++ List.replicate k 0 := by
    simp [List.reverse_append, List.reverse_replicate, List.map_append, List.map_replicate, h0]
  rw [hsplit, dvSumLoop_app_zeros]

/-- Witness for C10: three padding zeros leave the dv of body 42 unchanged. -/
theorem calculate_dv_zero_pad_witness :
    ("42".toList.all Char.isDigit = true) ∧
      calculate_dv (List.replicate 3 '0' ++ "42".toList) = calculate_dv "42".toList :=
  ⟨by decide, calculate_dv_zero_pad "42".toList 3 (by decide)⟩

/-- C1: for every input whose cleaned body is entirely numeric digits, if the
supplied check character (the last cleaned character) equals the computed one
then `validate_chilean_rut` succeeds returning the original input unchanged,
and if it differs then validation fails with a checksum `ValidationError`
whose message contains the computed check character. -/
theorem validate_rut_correct (value : List Char) (l : Char) (dvs : List Char)
    (hbody : (clean_rut value).dropLast ≠ [] ∧
      ∀ ch ∈ (clean_rut value).dropLast, ch.isDigit = true)
    (hlast : (clean_rut value).getLast? = some l)
    (hdv : calculate_dv ((clean_rut value).dropLast) = .ok dvs) :
    (dvs = [l] → validate_chilean_rut value = .ok value) ∧
    (dvs ≠ [l] →
      validate_chilean_rut value = .error (.validationError (msgChecksum value dvs)) ∧
      ∃ s t, msgChecksum value dvs = s ++ dvs ++ t) := by
  have hlen : ¬ (clean_rut value).length < 2 := by
    have h1 : (clean_rut value).dropLast.length = (clean_rut value).length - 1 :=
      List.length_dropLast _
    have h3 : 0 < (clean_rut value).dropLast.length := List.length_pos.mpr hbody.1
    omega
  have hdig : pyStrIsDigit (clean_rut value).dropLast = true := by
    simp only [pyStrIsDigit, Bool.and_eq_true, List.all_eq_true]
    constructor
    · simpa [List.isEmpty_iff] using hbody.1
    · intro c hc
      simp [pyIsDigit, hbody.2 c hc]
  constructor
  · intro heq
    simp only [validate_chilean_rut, if_neg hlen, hlast, hdig, hdv, heq, if_pos rfl]
    simp
  · intro hne
    refine ⟨?_, ?_⟩
    · simp only [validate_chilean_rut, if_neg hlen, hlast, hdig, hdv, if_neg hne]
      simp
    · exact ⟨"El RUT ingresado (".toList ++ [apos] ++ value ++ [apos] ++
          ") es inválido. El dígito verificador correcto es ".toList ++ [apos],
        [apos] ++ ".".toList, by simp [msgChecksum]⟩

/-- Witness for C1 at the spec's example: body 76086428 has check character
5, so 76086428-5 validates to itself and 76086428-4 fails with a message
containing the computed 5. -/
theorem validate_rut_correct_witness :
    validate_chilean_rut "76086428-5".toList = .ok "76086428-5".toList ∧
    (validate_chilean_rut "76086428-4".toList =
        .error (.validationError (msgChecksum "76086428-4".toList ['5'])) ∧
      ∃ s t, msgChecksum "76086428-4".toList ['5'] = s ++ ['5'] ++ t) :=
  ⟨(validate_rut_correct "76086428-5".toList '5' ['5']
      ⟨by decide, by decide⟩ (by decide) (by decide)).1 rfl,
    (validate_rut_correct "76086428-4".toList '4' ['5']
      ⟨by decide, by decide⟩ (by decide) (by decide)).2 (by decide)⟩

/-- C6 (code bug): the cleaned body of the input `²3-5` passes the
`str.isdigit` gate, yet `int('²')` raises a `ValueError` inside the summation
loop — outside the dead `try/except` of `calculate_dv`, because `map` is
lazy — so an exception that is not a `ValidationError` escapes
`validate_chilean_rut`. -/
theorem validate_rut_valueError_escapes :
    pyStrIsDigit ((clean_rut "²3-5".toList).dropLast) = true ∧
      validate_chilean_rut "²3-5".toList = .error .valueError := by decide

theorem toNat_ofNat_lt {n : Nat} (h : n < 55296) : (Char.ofNat n).toNat = n := by
  unfold Char.ofNat
  split
  · rfl
  · rename_i hh
    simp [Nat.isValidChar] at hh
    omega

theorem pyUpper_toNat (c : Char) (h : 97 ≤ c.toNat ∧ c.toNat ≤ 122) :
    (pyUpper c).toNat = c.toNat - 32 := by
  rw [pyUpper, if_pos h]
  exact toNat_ofNat_lt (by omega)

theorem pyUpper_notDotDash (c : Char) : notDotDash (pyUpper c) = notDotDash c := by
  by_cases h : 97 ≤ c.toNat ∧ c.toNat ≤ 122
  · have ht := pyUpper_toNat c h
    have e1 : notDotDash (pyUpper c) = true := by simp [notDotDash]; omega
    have e2 : notDotDash c = true := by simp [notDotDash]; omega
    rw [e1, e2]
  · rw [pyUpper, if_neg h]

theorem pyUpper_space (c : Char) : pyIsSpace (pyUpper c) = pyIsSpace c := by
  by_cases h : 97 ≤ c.toNat ∧ c.toNat ≤ 122
  · have ht := pyUpper_toNat c h
    have e1 : pyIsSpace (pyUpper c) = false := by simp [pyIsSpace]; omega
    have e2 : pyIsSpace c = false := by simp [pyIsSpace]; omega
    rw [e1, e2]
  · rw [pyUpper, if_neg h]

theorem pyUpper_idem (c : Char) : pyUpper (pyUpper c) = pyUpper c := by
  by_cases h : 97 ≤ c.toNat ∧ c.toNat ≤ 122
  · have ht := pyUpper_toNat c h
    have hno : ¬ (97 ≤ (pyUpper c).toNat ∧ (pyUpper c).toNat ≤ 122) := by omega
    conv_lhs => rw [pyUpper]
    rw [if_neg hno]
  · simp [pyUpper, h]
example : calculate_dv "76086428".toList = .ok ['5'] := by decide
example : validate_chilean_rut "76086428-5".toList = .ok "76086428-5".toList := by decide
example : validate_chilean_rut "76.086.428-5".toList = .ok "76.086.428-5".toList := by decide
example : validate_chilean_rut "1-9".toList = .ok "1-9".toList := by decide
example : calculate_dv "".toList = .ok ['0'] := by decide

theorem dropWhile_self {α} (p : α → Bool) (l : List α) :
    (l.dropWhile p).dropWhile p = l.dropWhile p := by
  induction l with
  | nil => rfl
  | cons a t ih =>
    by_cases h : p a = true
    · simp [List.dropWhile_cons, h, ih]
    · simp [List.dropWhile_cons, h]

theorem dropWhile_append_of_nil {α} (p : α → Bool) (l r : List α) (h : l.dropWhile p = []) :
    (l ++ r).dropWhile p = r.dropWhile p := by
  induction l with
  | nil => rfl
  | cons a t ih =>
    by_cases hp : p a = true
    · simp only [List.dropWhile_cons, hp, if_true] at h
      simpa [List.dropWhile_cons, hp] using ih h
    · simp [List.dropWhile_cons, hp] at h

theorem dropWhile_append_of_ne {α} (p : α → Bool) (l r : List α) (h : l.dropWhile p ≠ []) :
    (l ++ r).dropWhile p = l.dropWhile p ++ r := by
  induction l with
  | nil => simp at h
  | cons a t ih =>
    by_cases hp : p a = true
    · simp only [List.dropWhile_cons, hp, if_true] at h
      simpa [List.dropWhile_cons, hp] using ih h
    · simp [List.dropWhile_cons, hp]

/-- Left strip (`lstrip`) with respect to a whitespace predicate. -/
def lstripBy (p : Char → Bool) (s : List Char) : List Char :=
  s.dropWhile p

/-- Right strip (`rstrip`) with respect to a whitespace predicate. -/
def rstripBy (p : Char → Bool) (s : List Char) : List Char :=
  (s.reverse.dropWhile p).reverse

theorem pyStrip_eq (s : List Char) :
    pyStrip s = rstripBy pyIsSpace (lstripBy pyIsSpace s) := rfl

theorem rstripBy_cons (p : Char → Bool) (a : Char) (t : List Char) :
    rstripBy p (a :: t) =
      if t.reverse.dropWhile p = [] then (if p a then [] else [a])
      else a :: rstripBy p t := by
  unfold rstripBy
  by_cases h0 : t.reverse.dropWhile p = []
  · rw [List.reverse_cons, dropWhile_append_of_nil p _ _ h0, if_pos h0]
    by_cases hp : p a = true
    · simp [List.dropWhile_cons, hp]
    · simp [List.dropWhile_cons, hp]
  · rw [List.reverse_cons, dropWhile_append_of_ne p _ _ h0, if_neg h0]
    simp

theorem lstrip_rstrip_comm (p : Char → Bool) (s : List Char) :
    lstripBy p (rstripBy p s) = rstripBy p (lstripBy p s) := by
  induction s with
  | nil => rfl
  | cons a t ih =>
    rw [rstripBy_cons]
    by_cases hp : p a = true
    · have hL : lstripBy p (a :: t) = lstripBy p t := by
        simp [lstripBy, List.dropWhile_cons, hp]
      by_cases h0 : t.reverse.dropWhile p = []
      · rw [if_pos h0, if_pos hp, hL, ← ih]
        have hRt : rstripBy p t = [] := by simp [rstripBy, h0]
        rw [hRt]
      · rw [if_neg h0, hL, ← ih]
        simp [lstripBy, List.dropWhile_cons, hp]
    · have hL : lstripBy p (a :: t) = a :: t := by
        simp [lstripBy, List.dropWhile_cons, hp]
      rw [hL, rstripBy_cons]
      by_cases h0 : t.reverse.dropWhile p = []
      · rw [if_pos h0, if_neg hp]
        simp [lstripBy, List.dropWhile_cons, hp]
      · rw [if_neg h0]
        simp [lstripBy, List.dropWhile_cons, hp]

theorem lstripBy_self (p : Char → Bool) (s : List Char) :
    lstripBy p (lstripBy p s) = lstripBy p s :=
  dropWhile_self p s

theorem rstripBy_self (p : Char → Bool) (s : List Char) :
    rstripBy p (rstripBy p s) = rstripBy p s := by
  unfold rstripBy
  rw [List.reverse_reverse, dropWhile_self]

theorem pyStrip_idem (s : List Char) : pyStrip (pyStrip s) = pyStrip s := by
  rw [pyStrip_eq, pyStrip_eq s, lstrip_rstrip_comm, lstripBy_self, rstripBy_self]

theorem mem_pyStrip {c : Char} {l : List Char} (h : c ∈ pyStrip l) : c ∈ l := by
  unfold pyStrip at h
  rw [List.mem_reverse] at h
  have h1 : c ∈ (l.dropWhile pyIsSpace).reverse := (List.dropWhile_sublist pyIsSpace).subset h
  rw [List.mem_reverse] at h1
  exact (List.dropWhile_sublist pyIsSpace).subset h1

theorem pyStrip_map_pyUpper (l : List Char) :
    pyStrip (l.map pyUpper) = (pyStrip l).map pyUpper := by
  have hsu : (pyIsSpace ∘ pyUpper) = pyIsSpace := funext pyUpper_space
  unfold pyStrip
  rw [List.dropWhile_map, hsu, ← List.map_reverse, List.dropWhile_map, hsu, ← List.map_reverse]

/-- C7: `clean_rut` is idempotent — cleaning an already cleaned string
changes nothing, whatever mix of dots, dashes, surrounding whitespace and
letter case the original had. -/
theorem clean_rut_idem (x : List Char) : clean_rut (clean_rut x) = clean_rut x := by
  unfold clean_rut
  have hfu : (notDotDash ∘ pyUpper) = notDotDash := funext pyUpper_notDotDash
  rw [List.filter_map, hfu]
  have hfs : (pyStrip (x.filter notDotDash)).filter notDotDash
      = pyStrip (x.filter notDotDash) := by
    apply List.filter_eq_self.mpr
    intro c hc
    exact List.of_mem_filter (mem_pyStrip hc)
  rw [hfs, pyStrip_map_pyUpper, pyStrip_idem, List.map_map]
  congr 1
  exact funext pyUpper_idem

/-- Inventory record from `models.py`: one row per (branch, product) with an
integer stock constrained by `MinValueValidator(0)` and a reorder point
(default 5). -/
structure InventoryRecord where
  branch : Nat
  product : Nat
  stock : Int
  reorder_point : Int
deriving DecidableEq

/-- Failure modes of the ledger operations, from spec section 4.2. -/
inductive LedgerError where
  | insufficientStock (shortfall : Int)
  | notFound
deriving DecidableEq

/-- Lookup of the (branch, product) row, unique by the model's
`unique_together` constraint. -/
def findRecord (L : List InventoryRecord) (b p : Nat) : Option InventoryRecord :=
  L.find? (fun r => r.branch = b && r.product = p)

/-- Replace the stock of the (branch, product) row. -/
def setStock (L : List InventoryRecord) (b p : Nat) (s : Int) : List InventoryRecord :=
  L.map (fun r => if r.branch = b && r.product = p then { r with stock := s } else r)

/-- Modelled from the spec: the stock-mutation logic of the inventory ledger
(`reserveAndDecrement`) is not implemented in the source — the Purchase/Sale
serializers leave their `create` logic as a to-do — so it is modelled from
spec section 4.2: check `current_stock >= qty` and fail atomically with
`InsufficientStock` carrying the shortfall otherwise. -/
def reserveAndDecrement (L : List InventoryRecord) (b p : Nat) (qty : Nat) :
    Except LedgerError (List InventoryRecord) :=
  match findRecord L b p with
  | none => .error .notFound
  | some r =>
    if (qty : Int) ≤ r.stock then .ok (setStock L b p (r.stock - qty))
    else .error (.insufficientStock ((qty : Int) - r.stock))

/-- Modelled from the spec: `increment(branch, product, qty)` adds arriving
stock, creating the record with `stock = qty` if absent (spec section 4.2);
the reorder point takes the model's default 5. -/
def increment (L : List InventoryRecord) (b p : Nat) (qty : Nat) : List InventoryRecord :=
  match findRecord L b p with
  | none => ⟨b, p, (qty : Int), 5⟩ :: L
  | some r => setStock L b p (r.stock + qty)

/-- Modelled from the spec: `restore(branch, product, qty)` returns stock
committed at order creation (spec sections 4.2 and 4.4); same additive
behaviour as `increment`. -/
def restore (L : List InventoryRecord) (b p : Nat) (qty : Nat) : List InventoryRecord :=
  match findRecord L b p with
  | none => ⟨b, p, (qty : Int), 5⟩ :: L
  | some r => setStock L b p (r.stock + qty)

/-- One ledger mutation request: quantities are line-item quantities, which
the models constrain to be at least 1 (here: any natural number). -/
inductive LedgerOp where
  | inc (b p qty : Nat)
  | dec (b p qty : Nat)
  | res (b p qty : Nat)
deriving DecidableEq

/-- Apply one operation; a failed decrement leaves the ledger unchanged. -/
def applyLedgerOp (L : List InventoryRecord) : LedgerOp → List InventoryRecord
  | .inc b p q => increment L b p q
  | .dec b p q =>
    match reserveAndDecrement L b p q with
    | .ok L2 => L2
    | .error _ => L
  | .res b p q => restore L b p q

/-- Run a sequence of ledger operations. -/
def runLedgerOps (L : List InventoryRecord) (ops : List LedgerOp) : List InventoryRecord :=
  ops.foldl applyLedgerOp L

/-- Non-negativity of every stock counter, the invariant of claim C3. -/
def stocksNonneg (L : List InventoryRecord) : Prop :=
  ∀ r ∈ L, 0 ≤ r.stock

instance (L : List InventoryRecord) : Decidable (stocksNonneg L) :=
  List.decidableBAll _ L

theorem stocksNonneg_setStock (L : List InventoryRecord) (b p : Nat) (s : Int)
    (hL : stocksNonneg L) (hs : 0 ≤ s) : stocksNonneg (setStock L b p s) := by
  intro r hr
  rcases List.mem_map.mp hr with ⟨r0, hr0, hme⟩
  by_cases hk : (r0.branch = b && r0.product = p) = true
  · rw [if_pos hk] at hme
    rw [← hme]
    exact hs
  · rw [if_neg hk] at hme
    rw [← hme]
    exact hL r0 hr0

theorem stocksNonneg_applyLedgerOp (L : List InventoryRecord) (op : LedgerOp)
    (hL : stocksNonneg L) : stocksNonneg (applyLedgerOp L op) := by
  cases op with
  | inc b p q =>
    simp only [applyLedgerOp, increment]
    cases hf : findRecord L b p with
    | none =>
      intro r hr
      rcases List.mem_cons.mp hr with he | hm
      · rw [he]
        positivity
      · exact hL r hm
    | some r0 =>
      have h0 : 0 ≤ r0.stock := hL r0 (List.mem_of_find?_eq_some hf)
      exact stocksNonneg_setStock L b p _ hL (by positivity)
  | res b p q =>
    simp only [applyLedgerOp, restore]
    cases hf : findRecord L b p with
    | none =>
      intro r hr
      rcases List.mem_cons.mp hr with he | hm
      · rw [he]
        positivity
      · exact hL r hm
    | some r0 =>
      have h0 : 0 ≤ r0.stock := hL r0 (List.mem_of_find?_eq_some hf)
      exact stocksNonneg_setStock L b p _ hL (by positivity)
  | dec b p q =>
    simp only [applyLedgerOp]
    cases hr : reserveAndDecrement L b p q with
    | error e => exact hL
    | ok L2 =>
      simp only [reserveAndDecrement] at hr
      cases hf : findRecord L b p with
      | none => simp [hf] at hr
      | some r0 =>
        simp only [hf] at hr
        by_cases hq : (q : Int) ≤ r0.stock
        · rw [if_pos hq] at hr
          simp only [Except.ok.injEq] at hr
          rw [← hr]
          exact stocksNonneg_setStock L b p _ hL (by omega)
        · rw [if_neg hq] at hr
          simp at hr

/-- C3 (modelled from the spec, see `reserveAndDecrement`): over every
sequence of increment/decrement/restore operations stock never goes
negative, and a decrement whose quantity exceeds the current stock leaves
the ledger unchanged and fails with `InsufficientStock` carrying the
shortfall. -/
theorem inventory_stock_invariant (L : List InventoryRecord) (ops : List LedgerOp)
    (hL : stocksNonneg L) :
    stocksNonneg (runLedgerOps L ops) ∧
    ∀ b p (qty : Nat) r, findRecord L b p = some r → r.stock < (qty : Int) →
      reserveAndDecrement L b p qty = .error (.insufficientStock ((qty : Int) - r.stock)) ∧
      applyLedgerOp L (.dec b p qty) = L := by
  constructor
  · induction ops generalizing L with
    | nil => exact hL
    | cons op rest ih => exact ih _ (stocksNonneg_applyLedgerOp L op hL)
  · intro b p qty r hf hlt
    have he : reserveAndDecrement L b p qty
        = .error (.insufficientStock ((qty : Int) - r.stock)) := by
      simp only [reserveAndDecrement, hf]
      rw [if_neg (by omega)]
    refine ⟨he, ?_⟩
    simp only [applyLedgerOp, he]

/-- Witness for C3: from stock 5, decrementing 3 then failing to decrement
another 4 (shortfall 2) leaves a non-negative ledger. -/
theorem inventory_stock_invariant_witness :
    stocksNonneg (runLedgerOps [⟨1, 1, 5, 5⟩] [.dec 1 1 3, .dec 1 1 4, .inc 1 1 2]) ∧
      reserveAndDecrement [⟨1, 1, 1, 5⟩] 1 1 3 = .error (.insufficientStock 2) :=
  ⟨(inventory_stock_invariant [⟨1, 1, 5, 5⟩] [.dec 1 1 3, .dec 1 1 4, .inc 1 1 2]
      (by decide)).1,
    ((inventory_stock_invariant [⟨1, 1, 1, 5⟩] [] (by decide)).2 1 1 3 ⟨1, 1, 1, 5⟩
      (by decide) (by decide)).1⟩

/-- Product from `models.py`: sale price and company cost (decimals, modelled
as scaled integers), both non-negative by `MinValueValidator(0)`. -/
structure ProductRec where
  id : Nat
  price : Int
  cost : Int
deriving DecidableEq

/-- Payload accepted by `SaleItemSerializer`: `product` (a primary key),
`quantity`, and `price_at_sale`, which the serializer declares as a plain
required writable field (`extra_kwargs` makes it required), so the caller
supplies it. -/
structure SaleItemReq where
  product : Nat
  quantity : Int
  price_at_sale : Int
deriving DecidableEq

/-- Stored `SaleItem` row from `models.py`. -/
structure SaleItemRec where
  product : Nat
  quantity : Int
  price_at_sale : Int
deriving DecidableEq

/-- Payload accepted by `PurchaseItemSerializer`: `cost_at_purchase` is a
required writable field supplied by the caller. -/
structure PurchaseItemReq where
  product : Nat
  quantity : Int
  cost_at_purchase : Int
deriving DecidableEq

/-- Stored `PurchaseItem` row from `models.py`. -/
structure PurchaseItemRec where
  product : Nat
  quantity : Int
  cost_at_purchase : Int
deriving DecidableEq

/-- Validation and construction of a `SaleItem` as the serializer defines it:
the product reference must resolve, `quantity ≥ 1` (`MinValueValidator(1)`),
and the stored `price_at_sale` is the value from the request — the serializer
never reads `Product.price`. -/
def createSaleItem (products : List ProductRec) (req : SaleItemReq) : Option SaleItemRec :=
  if products.any (fun pr => pr.id = req.product) && 1 ≤ req.quantity then
    some { product := req.product, quantity := req.quantity, price_at_sale := req.price_at_sale }
  else none

/-- Validation and construction of a `PurchaseItem` as the serializer defines
it: the stored `cost_at_purchase` is the value from the request — the
serializer never reads `Product.cost`. -/
def createPurchaseItem (products : List ProductRec) (req : PurchaseItemReq) :
    Option PurchaseItemRec :=
  if products.any (fun pr => pr.id = req.product) && 1 ≤ req.quantity then
    some { product := req.product, quantity := req.quantity,
           cost_at_purchase := req.cost_at_purchase }
  else none

/-- Later mutation of a product's sale price, as a product update performs. -/
def updateProductPrice (products : List ProductRec) (id : Nat) (newPrice : Int) :
    List ProductRec :=
  products.map (fun pr => if pr.id = id then { pr with price := newPrice } else pr)

/-- Document total over stored sale items: Σ quantity × stored unit price. -/
def saleTotal (items : List SaleItemRec) : Int :=
  (items.map (fun it => it.quantity * it.price_at_sale)).sum

/-- Persistent state relevant to claim C4: the product table and the line
items of already-created sales. -/
structure ShopDb where
  products : List ProductRec
  sales : List (List SaleItemRec)
deriving DecidableEq

/-- A product-price update touches only the product table. -/
def dbUpdatePrice (db : ShopDb) (id : Nat) (newPrice : Int) : ShopDb :=
  { db with products := updateProductPrice db.products id newPrice }

/-- The totals of all stored sales. -/
def dbSaleTotals (db : ShopDb) : List Int :=
  db.sales.map saleTotal

/-- Counterexample to C4 as stated: product 1 has price 100 at creation
time, yet a sale item created with caller-supplied `price_at_sale = 42` is
stored with 42, not with the product's 100 — the serializers do not snapshot
the unit value from the Product, they require it in the request.  Likewise a
purchase item stores the caller's 7, not the product's cost 60. -/
theorem snapshot_not_from_product :
    createSaleItem [⟨1, 100, 60⟩] ⟨1, 2, 42⟩ = some ⟨1, 2, 42⟩ ∧ (42 : Int) ≠ 100 ∧
      createPurchaseItem [⟨1, 100, 60⟩] ⟨1, 3, 7⟩ = some ⟨1, 3, 7⟩ ∧ (7 : Int) ≠ 60 := by
  decide

/-- C4 amended: the line-item unit value (`price_at_sale` /
`cost_at_purchase`) is a required field supplied by the caller at
document-creation time and stored verbatim with the item, and changing a
Product's price afterwards alters neither stored line items nor stored
document totals. -/
theorem snapshot_caller_supplied_immutable (products : List ProductRec)
    (sreq : SaleItemReq) (sit : SaleItemRec) (preq : PurchaseItemReq) (pit : PurchaseItemRec)
    (hs : createSaleItem products sreq = some sit)
    (hp : createPurchaseItem products preq = some pit) :
    sit.price_at_sale = sreq.price_at_sale ∧
    pit.cost_at_purchase = preq.cost_at_purchase ∧
    ∀ (db : ShopDb) (id : Nat) (np : Int),
      (dbUpdatePrice db id np).sales = db.sales ∧
      dbSaleTotals (dbUpdatePrice db id np) = dbSaleTotals db := by
  refine ⟨?_, ?_, ?_⟩
  · unfold createSaleItem at hs
    by_cases hc : (products.any (fun pr => pr.id = sreq.product) && 1 ≤ sreq.quantity) = true
    · rw [if_pos hc] at hs
      cases hs
      rfl
    · rw [if_neg hc] at hs
      cases hs
  · unfold createPurchaseItem at hp
    by_cases hc : (products.any (fun pr => pr.id = preq.product) && 1 ≤ preq.quantity) = true
    · rw [if_pos hc] at hp
      cases hp
      rfl
    · rw [if_neg hc] at hp
      cases hp
  · intro db id np
    exact ⟨rfl, rfl⟩

/-- Witness for the amended C4 at concrete requests. -/
theorem snapshot_caller_supplied_immutable_witness :
    (⟨1, 2, 42⟩ : SaleItemRec).price_at_sale = (⟨1, 2, 42⟩ : SaleItemReq).price_at_sale ∧
    (⟨1, 3, 7⟩ : PurchaseItemRec).cost_at_purchase
        = (⟨1, 3, 7⟩ : PurchaseItemReq).cost_at_purchase ∧
    ∀ (db : ShopDb) (id : Nat) (np : Int),
      (dbUpdatePrice db id np).sales = db.sales ∧
      dbSaleTotals (dbUpdatePrice db id np) = dbSaleTotals db :=
  snapshot_caller_supplied_immutable [⟨1, 100, 60⟩] ⟨1, 2, 42⟩ ⟨1, 2, 42⟩ ⟨1, 3, 7⟩ ⟨1, 3, 7⟩
    (by decide) (by decide)

/-- A timezone-aware datetime, split the way the serializers use it: the
calendar date (as a day number) and the time within the day.  `.date()` in
the source corresponds to dropping the `timeOfDay` component. -/
structure PyDateTime where
  day : Nat
  timeOfDay : Nat
deriving DecidableEq

/-- Strict datetime order: `a` is later than `b`. -/
def dtLater (a b : PyDateTime) : Bool :=
  b.day < a.day || (a.day = b.day && b.timeOfDay < a.timeOfDay)

/-- Message of `PurchaseSerializer.validate_purchase_date`. -/
def msgFuturePurchase : List Char :=
  "La fecha de compra no puede ser futura.".toList

/-- Message of `SaleSerializer.validate_created_at`. -/
def msgFutureSale : List Char :=
  "La fecha de la venta POS no puede ser futura.".toList

/-- `PurchaseSerializer.validate_purchase_date` from `serializers.py`: the
source compares only the dates (`value.date() > timezone.now().date()`,
"Comparación solo de fecha, ignorando la hora"). -/
def validate_purchase_date (now value : PyDateTime) : Except PyExc PyDateTime :=
  if now.day < value.day then .error (.validationError msgFuturePurchase)
  else .ok value

/-- `SaleSerializer.validate_created_at` from `serializers.py`: full
datetime comparison `value > timezone.now()`. -/
def validate_created_at (now value : PyDateTime) : Except PyExc PyDateTime :=
  if dtLater value now then .error (.validationError msgFutureSale)
  else .ok value

/-- Counterexample to C5 as stated: a purchase timestamped later the same
day (day 100, a later time of day) is strictly later than the current time,
yet `validate_purchase_date` accepts it, because the source compares dates
only — the claim's "holds at datetime granularity" fails for Purchase. -/
theorem purchase_future_same_day_accepted :
    dtLater ⟨100, 20⟩ ⟨100, 10⟩ = true ∧
      validate_purchase_date ⟨100, 10⟩ ⟨100, 20⟩ = .ok ⟨100, 20⟩ := by
  decide

/-- C5 amended: Sale creation rejects any timestamp strictly later than the
current time (datetime granularity); Purchase creation compares calendar
dates only, rejecting exactly the timestamps whose date is later than
today's, so a purchase timestamped later today is accepted. -/
theorem future_timestamp_validation (now value : PyDateTime) :
    (validate_created_at now value = .ok value ↔ dtLater value now = false) ∧
    (dtLater value now = true →
      validate_created_at now value = .error (.validationError msgFutureSale)) ∧
    (validate_purchase_date now value = .ok value ↔ ¬ now.day < value.day) ∧
    (now.day < value.day →
      validate_purchase_date now value = .error (.validationError msgFuturePurchase)) := by
  refine ⟨?_, ?_, ?_, ?_⟩
  · constructor
    · intro h
      by_cases hb : dtLater value now = true
      · rw [validate_created_at, if_pos hb] at h
        cases h
      · simpa using hb
    · intro h
      rw [validate_created_at, h]
      rfl
  · intro h
    rw [validate_created_at, if_pos h]
  · constructor
    · intro h
      by_cases hb : now.day < value.day
      · rw [validate_purchase_date, if_pos hb] at h
        cases h
      · exact hb
    · intro h
      rw [validate_purchase_date, if_neg h]
  · intro h
    rw [validate_purchase_date, if_pos h]

/-- Witness for the amended C5: a sale timestamped in the future is
rejected, and one timestamped at the current instant passes. -/
theorem future_timestamp_validation_witness :
    validate_created_at ⟨5, 5⟩ ⟨5, 9⟩ = .error (.validationError msgFutureSale) ∧
      validate_created_at ⟨5, 5⟩ ⟨5, 5⟩ = .ok ⟨5, 5⟩ :=
  ⟨(future_timestamp_validation ⟨5, 5⟩ ⟨5, 9⟩).2.1 (by decide),
    (future_timestamp_validation ⟨5, 5⟩ ⟨5, 5⟩).1.mpr (by decide)⟩

/-- `OrderStatus` choices from `models.py`. -/
inductive OrderStatusEnum where
  | pendiente
  | enviado
  | entregado
  | anulada
deriving DecidableEq

/-- Default of the `Order.status` field:
`default=OrderStatus.PENDIENTE` in `models.py`. -/
def orderStatusDefault : OrderStatusEnum := .pendiente

/-- The `read_only_fields` tuple of `OrderSerializer` in `serializers.py`
(`items` is additionally declared `read_only=True` on the nested field). -/
def orderSerializerReadOnly : List String :=
  ["company", "total", "created_at", "status", "items"]

/-- Field names of the `Purchase` model in `models.py` (besides the implicit
primary key): it carries no status field. -/
def purchaseModelFieldNames : List String :=
  ["company", "supplier", "branch", "user", "total", "purchase_date"]

/-- Field names of the `Sale` model in `models.py`: no status field. -/
def saleModelFieldNames : List String :=
  ["company", "branch", "user", "total", "payment_method", "created_at"]

/-- What a caller may send when creating an Order.  `requested_status` and
`requested_total` model values a client might put in the payload; the
serializer drops them because `status`, `total` and `items` are read-only. -/
structure OrderWritePayload where
  client_user : Option Nat
  client_name : String
  client_email : String
  requested_status : Option OrderStatusEnum
  requested_total : Option Int
deriving DecidableEq

/-- A stored `Order` row (the fields claim C8 is about). -/
structure OrderRecord where
  client_user : Option Nat
  client_name : String
  client_email : String
  status : OrderStatusEnum
  total : Int
deriving DecidableEq

/-- Order creation through `OrderSerializer`: read-only fields are dropped
from the validated payload, so `status` takes the model default and `total`
is computed by the system (checkout), never taken from the payload. -/
def orderCreate (p : OrderWritePayload) (systemTotal : Int) : OrderRecord :=
  { client_user := p.client_user
    client_name := p.client_name
    client_email := p.client_email
    status := orderStatusDefault
    total := systemTotal }

/-- C8: every newly created Order has status Pending whatever the payload
requested, `status`, `total` and `items` are read-only in the creation
interface, and the Purchase and Sale models carry no status field at all. -/
theorem order_created_pending :
    (∀ (p : OrderWritePayload) (t : Int), (orderCreate p t).status = .pendiente) ∧
    "status" ∈ orderSerializerReadOnly ∧
    "total" ∈ orderSerializerReadOnly ∧
    "items" ∈ orderSerializerReadOnly ∧
    "status" ∉ purchaseModelFieldNames ∧
    "status" ∉ saleModelFieldNames :=
  ⟨fun _ _ => rfl, by decide, by decide, by decide, by decide, by decide⟩

/-- A `CartItem` row from `models.py`: keyed by an optional user or an
optional session key, with a product reference and a quantity. -/
structure CartItemRec where
  user : Option Nat
  session_key : Option String
  product : Nat
  quantity : Int
deriving DecidableEq

/-- Message of `CartItemSerializer.validate_quantity`. -/
def msgCartQty : List Char :=
  "La cantidad debe ser al menos 1.".toList

/-- `CartItemSerializer.validate_quantity` from `serializers.py`: quantities
below 1 are rejected. -/
def validate_quantity (q : Int) : Except PyExc Int :=
  if q < 1 then .error (.validationError msgCartQty) else .ok q

/-- Violation of the `unique_together` constraints
`(('user', 'product'), ('session_key', 'product'))` between two rows, with
SQL semantics: a NULL key never conflicts. -/
def cartConflict (a b : CartItemRec) : Prop :=
  (a.user ≠ none ∧ a.user = b.user ∧ a.product = b.product) ∨
  (a.session_key ≠ none ∧ a.session_key = b.session_key ∧ a.product = b.product)

instance (a b : CartItemRec) : Decidable (cartConflict a b) := by
  unfold cartConflict
  infer_instance

/-- Errors of a cart insert: the serializer's quantity validation and the
database's uniqueness constraint. -/
inductive CartError where
  | invalidQuantity
  | uniqueViolation
deriving DecidableEq

/-- Insertion of a cart item as the serializer plus the storage constraints
perform it: reject quantities below 1, reject rows that collide with an
existing row on (user, product) or (session_key, product). -/
def insertCartItem (table : List CartItemRec) (it : CartItemRec) :
    Except CartError (List CartItemRec) :=
  if it.quantity < 1 then .error .invalidQuantity
  else if table.any (fun b => decide (cartConflict it b)) then .error .uniqueViolation
  else .ok (it :: table)

/-- The invariant of claim C9: every quantity is at least 1 and no two rows
share a (non-null) user and product or a (non-null) session key and
product. -/
def cartOk (t : List CartItemRec) : Prop :=
  (∀ it ∈ t, 1 ≤ it.quantity) ∧ List.Pairwise (fun a b => ¬ cartConflict a b) t

/-- C9: cart operations reject quantities below 1, and inserting under the
uniqueness constraints preserves the cart invariant, so a product appears at
most once per (user) cart key and once per (session) cart key. -/
theorem cart_invariant :
    (∀ q : Int, q < 1 → validate_quantity q = .error (.validationError msgCartQty)) ∧
    (∀ (t : List CartItemRec) (it : CartItemRec) (t2 : List CartItemRec),
      cartOk t → insertCartItem t it = .ok t2 → cartOk t2) := by
  constructor
  · intro q hq
    rw [validate_quantity, if_pos hq]
  · intro t it t2 hok hins
    unfold insertCartItem at hins
    by_cases h1 : it.quantity < 1
    · rw [if_pos h1] at hins
      cases hins
    · rw [if_neg h1] at hins
      by_cases h2 : (t.any (fun b => decide (cartConflict it b))) = true
      · rw [if_pos h2] at hins
        cases hins
      · rw [if_neg h2] at hins
        simp only [Except.ok.injEq] at hins
        rw [← hins]
        constructor
        · intro x hx
          rcases List.mem_cons.mp hx with he | hm
          · rw [he]; omega
          · exact hok.1 x hm
        · refine List.Pairwise.cons ?_ hok.2
          intro b hb hc
          apply h2
          rw [List.any_eq_true]
          exact ⟨b, hb, decide_eq_true hc⟩

/-- Witness for C9: a zero quantity is rejected, and inserting a valid item
into an empty cart yields a cart satisfying the invariant. -/
theorem cart_invariant_witness :
    validate_quantity 0 = .error (.validationError msgCartQty) ∧
      cartOk [⟨some 1, none, 7, 2⟩] :=
  ⟨cart_invariant.1 0 (by decide),
    cart_invariant.2 [] ⟨some 1, none, 7, 2⟩ [⟨some 1, none, 7, 2⟩]
      ⟨fun x hx => absurd hx (List.not_mem_nil x), List.Pairwise.nil⟩ rfl⟩
